import Mathlib

/-!
Verification of the refresh / reconciliation engine of `sktop.py`, a terminal
dashboard for Slurm jobs.  The Python source is shallowly embedded: the pure
row-building and formatting logic becomes Lean functions, the stateful table
update becomes an explicit state-passing function, and the fallible external
subprocess calls (`squeue`, `scancel`) are parameterised by an outcome value
describing what the subprocess did (launch failure, exit code, parse result).
-/

namespace Sktop

/-- One job record as decoded from `squeue --json` output.  Fields carry the
defaults the Python code supplies via `dict.get` for absent keys:
`""` for the strings, `0` for `start_time`.  `job_id` is the already
stringified identifier (the code applies `str(...)`). -/
structure Job where
  job_id : String
  partition : String
  name : String
  job_state : String
  start_time : Int
  nodes : String
  job_reason : String
  deriving DecidableEq, Repr

/-- One row of the visible `DataTable`: the six displayed cells plus the row
key passed to `table.add_row(..., key=job_id)`. -/
structure Row where
  displayId : String
  partition : String
  name : String
  state : String
  timeUsed : String
  lastCol : String
  key : String
  deriving DecidableEq, Repr

/-- The mutable state of `SltopApp` that the claims are about: the visible
table rows, the cursor row coordinate, and the selection set
(`self.selected_jobs`, a Python `set` of job-id strings). -/
structure AppState where
  rows : List Row
  cursor : Nat
  selected_jobs : Finset String
  deriving DecidableEq

/-- Zero-padded two-digit rendering, the Python `f"{n:02d}"` for the
remainders (all below 60 resp. 24) produced by `format_time_used`. -/
def pad2 (n : Nat) : String :=
  (if n < 10 then "0" else "") ++ toString n

/-- `SltopApp.format_time_used(start_time, state)` with the call to
`time.time()` made explicit as the `now` argument.  Non-`RUNNING` states and
negative differences short-circuit to `"0:00"`; otherwise the elapsed seconds
are decomposed by repeated `divmod` and printed dropping leading zero units. -/
def format_time_used (now start_time : Int) (state : String) : String :=
  if state ≠ "RUNNING" then "0:00"
  else
    let diff := now - start_time
    if diff < 0 then "0:00"
    else
      let n := diff.toNat
      let m := n / 60
      let s := n % 60
      let h := m / 60
      let m2 := m % 60
      let d := h / 24
      let h2 := h % 24
      if d > 0 then toString d ++ "-" ++ pad2 h2 ++ ":" ++ pad2 m2 ++ ":" ++ pad2 s
      else if h2 > 0 then toString h2 ++ ":" ++ pad2 m2 ++ ":" ++ pad2 s
      else toString m2 ++ ":" ++ pad2 s

/-- The terminal states filtered out in `refresh_jobs_async`
(`if state in ["CANCELLED", "COMPLETED", "FAILED", "TIMEOUT"]: continue`). -/
def terminalStates : List String :=
  ["CANCELLED", "COMPLETED", "FAILED", "TIMEOUT"]

/-- The loop body of `refresh_jobs_async` for one surviving job: computes the
time-used cell, the placement cell (`(reason)` or `(PENDING)` for pending
jobs, the node list otherwise), and the displayed id (with selection markup
when the id is in the selection set); the row key is the plain `job_id`. -/
def buildRow (now : Int) (selected : Finset String) (job : Job) : Row :=
  let time_used := format_time_used now job.start_time job.job_state
  let last_col :=
    if job.job_state = "PENDING" then
      if job.job_reason ≠ "" then "(" ++ job.job_reason ++ ")" else "(PENDING)"
    else job.nodes
  let job_id_display :=
    if job.job_id ∈ selected then "[bold green]* " ++ job.job_id ++ "[/]"
    else job.job_id
  { displayId := job_id_display
    partition := job.partition
    name := job.name
    state := job.job_state
    timeUsed := time_used
    lastCol := last_col
    key := job.job_id }

/-- The full row set built by the `for job in jobs` loop: terminal-state jobs
are skipped, every other job contributes one row in order. -/
def buildRows (now : Int) (selected : Finset String) (jobs : List Job) : List Row :=
  (jobs.filter (fun j => !(terminalStates.contains j.job_state))).map
    (buildRow now selected)

/-- `table.coordinate_to_cell_key(table.cursor_coordinate).row_key` guarded by
`table.row_count > 0` and the surrounding `try/except`: the key of the row
under the cursor, or `none` when the table is empty or the cursor coordinate
does not resolve to a row. -/
def currentRowKey (s : AppState) : Option String :=
  if s.rows.length > 0 then (s.rows.get? s.cursor).map Row.key else none

/-- `table.get_row_index(key)`: the index of the (first) row whose key equals
`key`, or `none` when no row has that key (the Python call raises and the
caller's `except` ignores it). -/
def get_row_index (rows : List Row) (key : String) : Option Nat :=
  match rows with
  | [] => none
  | r :: rs => if r.key = key then some 0 else (get_row_index rs key).map (· + 1)

/-- `SltopApp.refresh_jobs_async` with the result of `get_jobs` passed in as
`jobs`: captures the key under the cursor, clears the table (which resets the
cursor to the default position 0), rebuilds all rows from the fetched jobs,
and restores the cursor to the row of the captured key when such a row
exists.  The selection set is read (for the markup) but never written. -/
def refresh_jobs_async (now : Int) (jobs : List Job) (s : AppState) : AppState :=
  let current_row_key := currentRowKey s
  let newRows := buildRows now s.selected_jobs jobs
  let newCursor :=
    match current_row_key with
    | none => 0
    | some k => (get_row_index newRows k).getD 0
  { rows := newRows, cursor := newCursor, selected_jobs := s.selected_jobs }

/-- The shape Python's `json.loads` can hand back to `get_jobs` when the
subprocess output deserializes at all: a JSON object (on which `.get("jobs")`
finds a job list or not), or a non-object value (on which `.get` raises). -/
inductive ParsedJson
  | dict (jobs : Option (List Job))
  | nonDict
  deriving DecidableEq

/-- What the `squeue` subprocess invocation did, seen from `get_jobs`:
`raised` is any exception while launching or communicating; otherwise the
process completed with an exit code and its stdout either deserialized
(`some p`) or made `json.loads` raise (`none`). -/
inductive FetchOutcome
  | raised
  | completed (returncode : Int) (body : Option ParsedJson)
  deriving DecidableEq

/-- `JobManager.get_jobs` as a function of the subprocess outcome, returning
the job list handed to the caller together with the error-log entries written
to the diagnostic log file.  Every failure path is caught and degrades to
`[]` plus a log entry; the function is total, so nothing propagates. -/
def get_jobs : FetchOutcome → List Job × List String
  | .raised => ([], ["Failed to fetch jobs"])
  | .completed rc body =>
    if rc ≠ 0 then ([], ["squeue error"])
    else
      match body with
      | none => ([], ["Failed to fetch jobs"])
      | some (.dict (some js)) => (js, [])
      | some (.dict none) => ([], [])
      | some .nonDict => ([], ["Failed to fetch jobs"])

/-- What the `scancel` subprocess invocation did, seen from `cancel_jobs`. -/
inductive CancelOutcome
  | raised
  | completed (returncode : Int)
  deriving DecidableEq

/-- `JobManager.cancel_jobs(job_ids)` as a function of the subprocess
outcome: an empty id list short-circuits to `false` before any subprocess
runs; otherwise success is exactly exit code zero, and any exception is
caught and becomes `false`. -/
def cancel_jobs (job_ids : List String) (o : CancelOutcome) : Bool :=
  if job_ids.isEmpty then false
  else
    match o with
    | .raised => false
    | .completed rc => rc = 0

/-- A `self.notify(...)` call: the message and whether it was sent with
error severity. -/
structure Notif where
  message : String
  isError : Bool
  deriving DecidableEq

/-- `SltopApp.do_kill_jobs(job_ids)`: run `cancel_jobs`; on success notify,
clear the selection set, and run `refresh_jobs_async` on a snapshot fetched
after the cancel completed (`postJobs`); on failure leave the state untouched
and surface an error notification.  Total: no path raises. -/
def do_kill_jobs (now : Int) (o : CancelOutcome) (postJobs : List Job)
    (s : AppState) (job_ids : List String) : AppState × List Notif :=
  if cancel_jobs job_ids o then
    (refresh_jobs_async now postJobs { s with selected_jobs := ∅ },
      [⟨"Cancelled " ++ toString job_ids.length ++ " jobs.", false⟩])
  else
    (s, [⟨"Failed to cancel some jobs.", true⟩])

/-- Externally visible effects of a UI action, used to state which actions
invoke the job-query subprocess. -/
inductive Event
  | fetchJobs
  deriving DecidableEq

/-- One full refresh cycle as triggered through `refresh_jobs`: it invokes
`squeue` (the `Event.fetchJobs` effect) and merges whatever `get_jobs`
returned for that invocation into the table. -/
def refresh_cycle (now : Int) (o : FetchOutcome) (s : AppState) :
    AppState × List Event :=
  (refresh_jobs_async now (get_jobs o).1 s, [Event.fetchJobs])

/-- The selection-set update performed by `action_toggle_select`: remove the
id when present, insert it when absent. -/
def toggledSelection (sel : Finset String) (job_id : String) : Finset String :=
  if job_id ∈ sel then sel.erase job_id else insert job_id sel

/-- `SltopApp.action_toggle_select`: resolve the row key under the cursor
(on failure the `except` swallows everything and nothing happens, including
the refresh), toggle its membership in the selection set, then call
`self.refresh_jobs()` — a full refresh cycle, which fetches jobs anew. -/
def action_toggle_select (now : Int) (o : FetchOutcome) (s : AppState) :
    AppState × List Event :=
  match currentRowKey s with
  | none => (s, [])
  | some job_id =>
    refresh_cycle now o { s with selected_jobs := toggledSelection s.selected_jobs job_id }

/-- A pending job, as `squeue --json` would report it. -/
def exJob : Job :=
  ⟨"1", "gpu", "train", "PENDING", 0, "", "Resources"⟩

/-- A running job on node01. -/
def exJob2 : Job :=
  ⟨"2", "gpu", "eval", "RUNNING", 0, "node01", ""⟩

/-- A completed (terminal-state) job. -/
def exJob3 : Job :=
  ⟨"3", "gpu", "old", "COMPLETED", 0, "node02", ""⟩

/-- A concrete app state showing `exJob` and `exJob2`, cursor on the second
row (job "2"), nothing selected. -/
def exState : AppState :=
  ⟨[buildRow 0 ∅ exJob, buildRow 0 ∅ exJob2], 1, ∅⟩

/-- A successful `get_row_index` lookup lands on a row carrying the looked-up
key. -/
theorem get_row_index_get? (rows : List Row) (k : String) (i : Nat)
    (h : get_row_index rows k = some i) :
    ∃ r, rows.get? i = some r ∧ r.key = k := by
  induction rows generalizing i with
  | nil => simp [get_row_index] at h
  | cons r rs ih =>
    by_cases hr : r.key = k
    · simp [get_row_index, hr] at h
      exact ⟨r, by simp [← h], hr⟩
    · simp [get_row_index, hr] at h
      obtain ⟨j, hj, hji⟩ := h
      obtain ⟨r0, hg, hk0⟩ := ih j hj
      exact ⟨r0, by simpa [← hji] using hg, hk0⟩

/-- `get_row_index` fails exactly when no row carries the key. -/
theorem get_row_index_eq_none (rows : List Row) (k : String) :
    get_row_index rows k = none ↔ ∀ r ∈ rows, r.key ≠ k := by
  induction rows with
  | nil => simp [get_row_index]
  | cons r rs ih =>
    by_cases hr : r.key = k
    · simp [get_row_index, hr]
    · simp [get_row_index, hr, ih]

/-- When some row carries the key, `get_row_index` succeeds. -/
theorem get_row_index_isSome (rows : List Row) (k : String)
    (h : ∃ r ∈ rows, r.key = k) : ∃ i, get_row_index rows k = some i := by
  cases hg : get_row_index rows k with
  | none =>
    obtain ⟨r, hr, hk⟩ := h
    exact absurd hk ((get_row_index_eq_none rows k).mp hg r hr)
  | some i => exact ⟨i, rfl⟩

/-- C2: if the key of the row under the cursor before a refresh is still
present among the post-refresh (terminal-filtered) rows, the cursor ends on a
row carrying that key; if it is absent, the cursor falls back to the default
position 0. -/
theorem refresh_preserves_cursor_identity (now : Int) (jobs : List Job)
    (s : AppState) (k : String) (hk : currentRowKey s = some k) :
    (k ∈ (refresh_jobs_async now jobs s).rows.map Row.key →
      ∃ r, (refresh_jobs_async now jobs s).rows.get?
          (refresh_jobs_async now jobs s).cursor = some r ∧ r.key = k)
    ∧ (k ∉ (refresh_jobs_async now jobs s).rows.map Row.key →
      (refresh_jobs_async now jobs s).cursor = 0) := by
  constructor
  · intro hmem
    obtain ⟨r, hr, hrk⟩ := List.mem_map.mp hmem
    obtain ⟨i, hi⟩ := get_row_index_isSome _ k ⟨r, hr, hrk⟩
    obtain ⟨r0, hg, hk0⟩ := get_row_index_get? _ k i hi
    refine ⟨r0, ?_, hk0⟩
    have hrows : (refresh_jobs_async now jobs s).rows
        = buildRows now s.selected_jobs jobs := rfl
    have hcur : (refresh_jobs_async now jobs s).cursor
        = (get_row_index (buildRows now s.selected_jobs jobs) k).getD 0 := by
      simp [refresh_jobs_async, hk]
    rw [hrows] at hi
    rw [hcur, hrows, hi]
    simpa using hg
  · intro hmem
    have hnone : get_row_index (refresh_jobs_async now jobs s).rows k = none := by
      rw [get_row_index_eq_none]
      intro r hr hrk
      exact hmem (List.mem_map.mpr ⟨r, hr, hrk⟩)
    have hrows : (refresh_jobs_async now jobs s).rows
        = buildRows now s.selected_jobs jobs := rfl
    rw [hrows] at hnone
    simp [refresh_jobs_async, hk, hnone]

/-- C2 witness: with the cursor on job "2", a refresh that keeps job "2" (at
a shifted index) puts the cursor back on the row keyed "2"; a refresh whose
snapshot lacks job "2" resets the cursor to 0. -/
theorem refresh_preserves_cursor_identity_witness :
    (∃ r, (refresh_jobs_async 65 [exJob, exJob2] exState).rows.get?
        (refresh_jobs_async 65 [exJob, exJob2] exState).cursor = some r ∧ r.key = "2")
    ∧ (refresh_jobs_async 65 [exJob] exState).cursor = 0 :=
  ⟨(refresh_preserves_cursor_identity 65 [exJob, exJob2] exState "2"
      (by decide)).1 (by decide),
   (refresh_preserves_cursor_identity 65 [exJob] exState "2"
      (by decide)).2 (by decide)⟩

/-- C3: after a refresh, no visible row belongs to a job in a terminal state:
every row's state cell avoids {CANCELLED, COMPLETED, FAILED, TIMEOUT}. -/
theorem refresh_no_terminal_rows (now : Int) (jobs : List Job) (s : AppState) :
    ∀ r ∈ (refresh_jobs_async now jobs s).rows, r.state ∉ terminalStates := by
  intro r hr
  have hr2 : r ∈ buildRows now s.selected_jobs jobs := hr
  obtain ⟨j, hj, hjr⟩ := List.mem_map.mp hr2
  have hfilter := List.mem_filter.mp hj
  subst hjr
  have h2 := hfilter.2
  simp only [buildRow]
  simpa using h2

/-- C3 witness: in a refresh over a snapshot holding one running and one
completed job, the surviving running job's row is visible and its state is
not terminal. -/
theorem refresh_no_terminal_rows_witness :
    (buildRow 65 ∅ exJob2).state ∉ terminalStates :=
  refresh_no_terminal_rows 65 [exJob2, exJob3] exState
    (buildRow 65 ∅ exJob2) (by decide)

/-- C8: a refresh never mutates the selection set: the set after the refresh
is the set before it, so every identifier's membership is preserved even when
its job vanished from the new snapshot. -/
theorem refresh_preserves_selection (now : Int) (jobs : List Job) (s : AppState) :
    (refresh_jobs_async now jobs s).selected_jobs = s.selected_jobs
    ∧ ∀ id : String,
        (id ∈ (refresh_jobs_async now jobs s).selected_jobs ↔ id ∈ s.selected_jobs) :=
  ⟨rfl, fun _ => Iff.rfl⟩

/-- C10: every row's key is the plain job id of its surviving job, so the key
sequence is independent of the selection set; selection affects only the
displayed id cell, which carries the markup (and is then a strictly longer
string than the key) exactly when the key is selected. -/
theorem refresh_row_keys_plain (now : Int) (jobs : List Job) (s : AppState) :
    ((refresh_jobs_async now jobs s).rows.map Row.key =
      (jobs.filter (fun j => !(terminalStates.contains j.job_state))).map Job.job_id)
    ∧ (∀ S T : Finset String,
        (refresh_jobs_async now jobs { s with selected_jobs := S }).rows.map Row.key =
        (refresh_jobs_async now jobs { s with selected_jobs := T }).rows.map Row.key)
    ∧ (∀ r ∈ (refresh_jobs_async now jobs s).rows,
        (r.key ∈ s.selected_jobs →
          r.displayId = "[bold green]* " ++ r.key ++ "[/]" ∧ r.displayId ≠ r.key)
        ∧ (r.key ∉ s.selected_jobs → r.displayId = r.key)) := by
  have hkeys : ∀ (sel : Finset String),
      (buildRows now sel jobs).map Row.key =
      (jobs.filter (fun j => !(terminalStates.contains j.job_state))).map Job.job_id := by
    intro sel
    simp only [buildRows, List.map_map]
    rfl
  refine ⟨hkeys s.selected_jobs, fun S T => (hkeys S).trans (hkeys T).symm, ?_⟩
  intro r hr
  obtain ⟨j, _, hjr⟩ := List.mem_map.mp (hr : r ∈ buildRows now s.selected_jobs jobs)
  subst hjr
  have hkey : (buildRow now s.selected_jobs j).key = j.job_id := rfl
  constructor
  · intro hsel
    rw [hkey] at hsel
    have hdisp : (buildRow now s.selected_jobs j).displayId
        = "[bold green]* " ++ j.job_id ++ "[/]" := by
      simp [buildRow, hsel]
    refine ⟨by rw [hdisp, hkey], ?_⟩
    rw [hdisp, hkey]
    intro habs
    have hlen := congrArg String.length habs
    have h14 : "[bold green]* ".length = 14 := rfl
    have h3 : "[/]".length = 3 := rfl
    rw [String.length_append, String.length_append, h14, h3] at hlen
    omega
  · intro hsel
    rw [hkey] at hsel
    have hdisp : (buildRow now s.selected_jobs j).displayId = j.job_id := by
      simp [buildRow, hsel]
    rw [hdisp, hkey]

/-- C10 witness: with job "1" selected, its row keeps the plain key "1" while
its displayed id carries the selection markup. -/
theorem refresh_row_keys_plain_witness :
    ((buildRow 0 (insert "1" ∅) exJob).key ∈ (insert "1" ∅ : Finset String) →
      (buildRow 0 (insert "1" ∅) exJob).displayId =
          "[bold green]* " ++ (buildRow 0 (insert "1" ∅) exJob).key ++ "[/]"
      ∧ (buildRow 0 (insert "1" ∅) exJob).displayId ≠ (buildRow 0 (insert "1" ∅) exJob).key) ∧
    ((buildRow 0 (insert "1" ∅) exJob).key ∉ (insert "1" ∅ : Finset String) →
      (buildRow 0 (insert "1" ∅) exJob).displayId = (buildRow 0 (insert "1" ∅) exJob).key) :=
  (refresh_row_keys_plain 0 [exJob] ⟨[], 0, insert "1" ∅⟩).2.2
    (buildRow 0 (insert "1" ∅) exJob) (by decide)

/-- C5: `format_time_used` yields "0:00" for every non-RUNNING state and for
negative elapsed time; for a RUNNING job, 90 elapsed seconds format as
"1:30" and 3661 as "1:01:01" (leading zero units dropped). -/
theorem format_time_used_spec :
    (∀ (now st : Int) (state : String),
        state ≠ "RUNNING" → format_time_used now st state = "0:00")
    ∧ (∀ now st : Int, now - st < 0 → format_time_used now st "RUNNING" = "0:00")
    ∧ (∀ now st : Int, now - st = 90 → format_time_used now st "RUNNING" = "1:30")
    ∧ (∀ now st : Int, now - st = 3661 →
        format_time_used now st "RUNNING" = "1:01:01") := by
  refine ⟨fun now st state h => by simp [format_time_used, h], ?_, ?_, ?_⟩
  · intro now st h
    simp [format_time_used, h]
  · intro now st h
    simp only [format_time_used, h]
    rfl
  · intro now st h
    simp only [format_time_used, h]
    rfl

/-- C5 witness: the four cases of `format_time_used_spec` at concrete
timestamps. -/
theorem format_time_used_spec_witness :
    format_time_used 1000 0 "PENDING" = "0:00"
    ∧ format_time_used 0 5 "RUNNING" = "0:00"
    ∧ format_time_used 1000 910 "RUNNING" = "1:30"
    ∧ format_time_used 4000 339 "RUNNING" = "1:01:01" :=
  ⟨format_time_used_spec.1 1000 0 "PENDING" (by decide),
   format_time_used_spec.2.1 0 5 (by decide),
   format_time_used_spec.2.2.1 1000 910 (by decide),
   format_time_used_spec.2.2.2 4000 339 (by decide)⟩

/-- C9: every surviving job contributes its built row to the refreshed table;
the placement cell of a PENDING job is the reason in parentheses (or the
placeholder "(PENDING)" when the reason is empty/absent) and the node list
otherwise — so a PENDING job with reason "Resources" shows "(Resources)" and
a RUNNING job on "node01" shows "node01". -/
theorem refresh_placement_spec (now : Int) (jobs : List Job) (s : AppState) :
    (∀ j ∈ jobs, j.job_state ∉ terminalStates →
      buildRow now s.selected_jobs j ∈ (refresh_jobs_async now jobs s).rows)
    ∧ (∀ (sel : Finset String) (j : Job), j.job_state = "PENDING" →
      (buildRow now sel j).lastCol =
        if j.job_reason ≠ "" then "(" ++ j.job_reason ++ ")" else "(PENDING)")
    ∧ (∀ (sel : Finset String) (j : Job), j.job_state ≠ "PENDING" →
      (buildRow now sel j).lastCol = j.nodes) := by
  refine ⟨?_, ?_, ?_⟩
  · intro j hj hterm
    have : j ∈ jobs.filter (fun j => !(terminalStates.contains j.job_state)) :=
      List.mem_filter.mpr ⟨hj, by simpa using hterm⟩
    exact List.mem_map.mpr ⟨j, this, rfl⟩
  · intro sel j h
    simp [buildRow, h]
  · intro sel j h
    simp [buildRow, h]

/-- C9 witness: the pending job with reason "Resources" survives and shows
placement "(Resources)"; the running job on node01 shows "node01". -/
theorem refresh_placement_spec_witness :
    buildRow 65 ∅ exJob ∈ (refresh_jobs_async 65 [exJob, exJob2] exState).rows
    ∧ (buildRow 65 ∅ exJob).lastCol = "(Resources)"
    ∧ (buildRow 65 ∅ exJob2).lastCol = "node01" := by
  refine ⟨(refresh_placement_spec 65 [exJob, exJob2] exState).1 exJob
      (by decide) (by decide), ?_, ?_⟩
  · have h := (refresh_placement_spec 65 [exJob, exJob2] exState).2.1 ∅ exJob (by decide)
    rw [h]
    decide
  · exact (refresh_placement_spec 65 [exJob, exJob2] exState).2.2 ∅ exJob2 (by decide)

/-- C4: when the cancel command reports success, `do_kill_jobs` ends in the
state produced by a forced reconciliation over a post-cancel snapshot with
the selection set cleared (and it stays cleared), surfacing a non-error
notification; when it reports failure, the app state — table rows, cursor
and selection alike — is untouched and exactly one error notification is
surfaced.  Both branches are total: no failure propagates. -/
theorem do_kill_jobs_spec (now : Int) (o : CancelOutcome) (postJobs : List Job)
    (s : AppState) (ids : List String) :
    (cancel_jobs ids o = true →
      (do_kill_jobs now o postJobs s ids).1 =
          refresh_jobs_async now postJobs { s with selected_jobs := ∅ }
      ∧ (do_kill_jobs now o postJobs s ids).1.selected_jobs = ∅
      ∧ (do_kill_jobs now o postJobs s ids).2 =
          [⟨"Cancelled " ++ toString ids.length ++ " jobs.", false⟩])
    ∧ (cancel_jobs ids o = false →
      (do_kill_jobs now o postJobs s ids).1 = s
      ∧ (do_kill_jobs now o postJobs s ids).2 =
          [⟨"Failed to cancel some jobs.", true⟩]
      ∧ (do_kill_jobs now o postJobs s ids).2.all Notif.isError = true) := by
  constructor
  · intro h
    refine ⟨by simp [do_kill_jobs, h], ?_, by simp [do_kill_jobs, h]⟩
    simp only [do_kill_jobs, h, if_true]
    rfl
  · intro h
    refine ⟨by simp [do_kill_jobs, h], by simp [do_kill_jobs, h], ?_⟩
    simp [do_kill_jobs, h, List.all]

/-- C4 witness: a successful cancel (`scancel` exits 0) of job "1" clears the
selection and reconciles; a raised cancel leaves the state alone and surfaces
the error notification. -/
theorem do_kill_jobs_spec_witness :
    ((do_kill_jobs 65 (.completed 0) [exJob2] exState ["1"]).1 =
        refresh_jobs_async 65 [exJob2] { exState with selected_jobs := ∅ }
      ∧ (do_kill_jobs 65 (.completed 0) [exJob2] exState ["1"]).1.selected_jobs = ∅
      ∧ (do_kill_jobs 65 (.completed 0) [exJob2] exState ["1"]).2 =
          [⟨"Cancelled " ++ toString (["1"] : List String).length ++ " jobs.", false⟩])
    ∧ ((do_kill_jobs 65 .raised [exJob2] exState ["1"]).1 = exState
      ∧ (do_kill_jobs 65 .raised [exJob2] exState ["1"]).2 =
          [⟨"Failed to cancel some jobs.", true⟩]
      ∧ (do_kill_jobs 65 .raised [exJob2] exState ["1"]).2.all Notif.isError = true) :=
  ⟨(do_kill_jobs_spec 65 (.completed 0) [exJob2] exState ["1"]).1 (by decide),
   (do_kill_jobs_spec 65 .raised [exJob2] exState ["1"]).2 (by decide)⟩

/-- C7: `get_jobs` is a total function of the subprocess outcome — it never
propagates a fault — and on every failing outcome (launch/communication
exception, non-zero exit, output that `json.loads` rejects, or a JSON value
that is not an object) it hands the caller the empty job list, exactly what a
legitimately empty poll produces, while writing a diagnostic log entry. -/
theorem get_jobs_spec (o : FetchOutcome)
    (h : o = .raised
      ∨ (∃ rc body, o = .completed rc body ∧ rc ≠ 0)
      ∨ (∃ rc, o = .completed rc none)
      ∨ (∃ rc, o = .completed rc (some .nonDict))) :
    (get_jobs o).1 = [] ∧ (get_jobs o).2 ≠ [] := by
  rcases h with h | ⟨rc, body, h, hrc⟩ | ⟨rc, h⟩ | ⟨rc, h⟩
  · subst h; exact ⟨rfl, by simp [get_jobs]⟩
  · subst h; simp [get_jobs, hrc]
  · subst h
    by_cases hrc : rc = 0
    · subst hrc; exact ⟨rfl, by simp [get_jobs]⟩
    · simp [get_jobs, hrc]
  · subst h
    by_cases hrc : rc = 0
    · subst hrc; exact ⟨rfl, by simp [get_jobs]⟩
    · simp [get_jobs, hrc]

/-- C7 witness: a failed launch yields the empty job list plus a log entry. -/
theorem get_jobs_spec_witness :
    (get_jobs .raised).1 = [] ∧ (get_jobs .raised).2 ≠ [] :=
  get_jobs_spec .raised (Or.inl rfl)

/-- C6 counterexample: toggling the selection on a concrete state does issue
a new job fetch — `action_toggle_select` calls the full refresh cycle, whose
effect trace contains the `squeue` invocation — contradicting the claim that
the post-toggle re-render performs no new fetch of jobs. -/
theorem toggle_select_fetches :
    Event.fetchJobs ∈ (action_toggle_select 0 FetchOutcome.raised exState).2 := by
  decide

/-- C6 (amended): `action_toggle_select` resolves the key under the cursor,
toggles exactly that identifier's membership in the selection set (toggling
twice restores any selection set), and then runs a full refresh cycle — which
does fetch jobs anew — so the visual indicator is re-rendered. -/
theorem toggle_select_spec (now : Int) (o : FetchOutcome) (s : AppState)
    (k : String) (hk : currentRowKey s = some k) :
    (action_toggle_select now o s =
        refresh_cycle now o { s with selected_jobs := toggledSelection s.selected_jobs k })
    ∧ (k ∈ toggledSelection s.selected_jobs k ↔ k ∉ s.selected_jobs)
    ∧ (∀ id : String, id ≠ k →
        (id ∈ toggledSelection s.selected_jobs k ↔ id ∈ s.selected_jobs))
    ∧ (∀ (sel : Finset String) (j : String),
        toggledSelection (toggledSelection sel j) j = sel)
    ∧ (action_toggle_select now o s).2 = [Event.fetchJobs] := by
  have htoggle2 : ∀ (sel : Finset String) (j : String),
      toggledSelection (toggledSelection sel j) j = sel := by
    intro sel j
    by_cases hj : j ∈ sel
    · simp [toggledSelection, hj, Finset.insert_erase]
    · simp [toggledSelection, hj, Finset.erase_insert]
  refine ⟨by simp [action_toggle_select, hk], ?_, ?_, htoggle2, ?_⟩
  · by_cases hks : k ∈ s.selected_jobs
    · simp [toggledSelection, hks]
    · simp [toggledSelection, hks]
  · intro id hid
    by_cases hks : k ∈ s.selected_jobs
    · simp [toggledSelection, hks, Finset.mem_erase, hid]
    · simp [toggledSelection, hks, Finset.mem_insert, hid]
  · simp [action_toggle_select, hk, refresh_cycle]

/-- C6 witness: on the concrete state with the cursor on job "2", the toggle
flips "2" into the selection and the action's effect trace is exactly one
job fetch. -/
theorem toggle_select_spec_witness :
    ("2" ∈ toggledSelection exState.selected_jobs "2" ↔ "2" ∉ exState.selected_jobs)
    ∧ (action_toggle_select 0 FetchOutcome.raised exState).2 = [Event.fetchJobs] :=
  ⟨(toggle_select_spec 0 .raised exState "2" (by decide)).2.1,
   (toggle_select_spec 0 .raised exState "2" (by decide)).2.2.2.2⟩

end Sktop
